import Mathlib

/-!
Verification of the Simple-Matrix C library (src/matrix.h, src/matrix.c).

Shallow embedding conventions:
* `double` values are modelled as rationals (`ℚ`); every concrete input used
  in a theorem below is exactly representable in binary64 and the traced
  operations on it are exact, so the layout/control-flow content of each
  claim is unaffected by this idealisation.
* A C `Matrix` handle (a possibly-NULL pointer) is `Option MatrixData`;
  `none` is the NULL handle.
* A heap buffer of doubles is a `List ℚ` whose length is the allocation size.
  A read past the end of a buffer (undefined behaviour in C) is modelled as
  returning 0 via `lGet`; a write past the end is dropped (`List.set`).
  Every *proved* positive theorem carries hypotheses that keep the traced C
  execution inside the allocated buffers, so these conventions never carry a
  proof; counterexample traces are chosen to stay in bounds as well.
* Dereferencing a NULL handle (a C crash / undefined behaviour) is modelled
  by the distinguished value `CRes.crash` for the functions in which the
  source can reach such a dereference.
* Operations that mutate through pointers are modelled as pure functions
  returning the post-call state of the mutated object; functions whose
  source can be called with `result == matrix` (aliased pointers) get a
  second, `_alias`-suffixed transcription in which the two pointers denote
  the single shared object, so that loads and stores interleave exactly as
  in the aliased C execution.
* The external BLAS/LAPACK kernels (`dgemm_`, `dgetrf_`, `dgetri_`) are not
  part of this repository; they are modelled from the spec's §6 contract
  (see the `Modelled from the spec:` doc comments).
-/

namespace SimpleMatrix

/-- matrix.h line 31: `#define MATRIX_SIZE_MAX (50 * 50)`. -/
def MATRIX_SIZE_MAX : ℕ := 50 * 50

/-- matrix.h line 33: identity kind tag for `Mat_CreateSquare`. -/
def MATRIX_IDENTITY : Char := 'I'

/-- matrix.h line 34: zero kind tag for `Mat_CreateSquare`. -/
def MATRIX_ZERO : Char := '0'

/-- matrix.h line 36: transpose flag for `Mat_Dot`. -/
def MATRIX_TRANSPOSE : Char := 'T'

/-- matrix.h line 37: keep flag for `Mat_Dot`. -/
def MATRIX_KEEP : Char := 'N'

/-- matrix.c lines 42-46: `struct _MatrixData` — a buffer of doubles
(column-major) plus the two dimension fields.  `data.length` is the current
allocation size of the buffer. -/
structure MatrixData where
  data : List ℚ
  rowsNumber : ℕ
  columnsNumber : ℕ
deriving DecidableEq, Repr

/-- matrix.h line 41: `Matrix` is a possibly-NULL pointer to `MatrixData`. -/
abbrev Matrix := Option MatrixData

/-- Outcome of a C call that may dereference a NULL pointer: either a normal
return value or a crash (undefined behaviour). -/
inductive CRes (α : Type) where
  | ok (val : α)
  | crash
deriving DecidableEq, Repr

/-- Read `l[i]` from a buffer; out-of-range reads (C undefined behaviour)
yield 0.  All proved theorems keep reads in range via hypotheses. -/
def lGet (l : List ℚ) (i : ℕ) : ℚ := (l[i]?).getD 0

/-- `realloc` of a buffer to exactly `n` doubles: the common prefix is
preserved, any extension is left as fresh (modelled 0, never read before
being overwritten in the traced code paths). -/
def listRealloc (l : List ℚ) (n : ℕ) : List ℚ :=
  l.take n ++ List.replicate (n - l.length) 0

/-- `memset(l, 0, n * sizeof(double))` on a buffer: zero the first `n`
entries (clipped to the allocation). -/
def memsetZero (l : List ℚ) (n : ℕ) : List ℚ :=
  List.replicate (min n l.length) 0 ++ l.drop n

/-- `memcpy(dst, src, n * sizeof(double))`: overwrite the first `n` entries
of `dst` with those of `src`. -/
def memcpyInto (dst src : List ℚ) (n : ℕ) : List ℚ :=
  src.take n ++ dst.drop n

/-- A C `for (i = 0; i < cnt; i++) buf[idx i] = val i;` loop whose
right-hand sides do not read the written buffer. -/
def writeSeq (cnt : ℕ) (idx : ℕ → ℕ) (val : ℕ → ℚ) (l : List ℚ) : List ℚ :=
  (List.range cnt).foldl (fun b i => b.set (idx i) (val i)) l

/-- A nested C double loop `for (o ...) for (i ...) buf[idx o i] = val o i;`
whose right-hand sides do not read the written buffer. -/
def writePairs (outer inner : ℕ) (idx : ℕ → ℕ → ℕ) (val : ℕ → ℕ → ℚ)
    (l : List ℚ) : List ℚ :=
  (List.range outer).foldl (fun b o => writeSeq inner (idx o) (val o) b) l

/-- matrix.c lines 100-107: `Mat_Clear` — NULL check, then
`memset(matrix->data, 0, rows*cols*sizeof(double))`, returning the matrix. -/
def Mat_Clear (mm : Matrix) : Matrix :=
  match mm with
  | none => none
  | some m =>
      some ⟨memsetZero m.data (m.rowsNumber * m.columnsNumber),
            m.rowsNumber, m.columnsNumber⟩

/-- matrix.c lines 154-163: `Mat_SetData` — NULL check, then import of a
row-major array into the column-major buffer:
`for (column) for (row) data[column*rows + row] = src[row*cols + column]`.
The returned value is the post-call state of the matrix object. -/
def Mat_SetData (mm : Matrix) (src : List ℚ) : Matrix :=
  match mm with
  | none => none
  | some m =>
      some ⟨writePairs m.columnsNumber m.rowsNumber
              (fun column row => column * m.rowsNumber + row)
              (fun column row => lGet src (row * m.columnsNumber + column))
              m.data,
            m.rowsNumber, m.columnsNumber⟩

/-- matrix.c lines 141-152: `Mat_GetData` — NULL check, then export of the
column-major buffer into a caller buffer in row-major order:
`for (row) for (column) buffer[row*cols + column] = data[column*rows + row]`.
Returns the filled buffer, or `none` for the NULL return. -/
def Mat_GetData (mm : Matrix) (buffer : List ℚ) : Option (List ℚ) :=
  match mm with
  | none => none
  | some m =>
      some (writePairs m.rowsNumber m.columnsNumber
              (fun row column => row * m.columnsNumber + column)
              (fun row column => lGet m.data (column * m.rowsNumber + row))
              buffer)

/-- matrix.c lines 49-64: `Mat_Create` — reject a dimension larger than
`MATRIX_SIZE_MAX`, `calloc` a zeroed `rows*cols` buffer, then either
`Mat_Clear` (no seed data) or `Mat_SetData` (row-major seed data). -/
def Mat_Create (data : Option (List ℚ)) (rowsNumber columnsNumber : ℕ) :
    Matrix :=
  if rowsNumber > MATRIX_SIZE_MAX ∨ columnsNumber > MATRIX_SIZE_MAX then none
  else
    let newMatrix : MatrixData :=
      ⟨List.replicate (rowsNumber * columnsNumber) 0,
       rowsNumber, columnsNumber⟩
    match data with
    | none => Mat_Clear (some newMatrix)
    | some d => Mat_SetData (some newMatrix) d

/-- matrix.c lines 66-77: `Mat_CreateSquare` — `Mat_Create(NULL, size, size)`
and, for the identity kind, a loop writing `1.0` on the diagonal.  The
source does not test the inner create for NULL before the loop dereferences
`newSquareMatrix->data`, so a failed create with kind `'I'` and a positive
size is a NULL dereference (`CRes.crash`). -/
def Mat_CreateSquare (size : ℕ) (type : Char) : CRes Matrix :=
  let newSquareMatrix := Mat_Create none size size
  if type = 'I' then
    match newSquareMatrix with
    | some m =>
        .ok (some ⟨writeSeq size (fun line => line * size + line) (fun _ => 1)
                     m.data,
                   m.rowsNumber, m.columnsNumber⟩)
    | none => if size = 0 then .ok none else .crash
  else .ok newSquareMatrix

/-- matrix.c lines 109-114: `Mat_GetWidth` — 0 for NULL, else the column
count. -/
def Mat_GetWidth (mm : Matrix) : ℕ :=
  match mm with
  | none => 0
  | some m => m.columnsNumber

/-- matrix.c lines 116-121: `Mat_GetHeight` — 0 for NULL, else the row
count. -/
def Mat_GetHeight (mm : Matrix) : ℕ :=
  match mm with
  | none => 0
  | some m => m.rowsNumber

/-- matrix.c lines 123-130: `Mat_GetElement` — 0.0 for NULL or an
out-of-range position, else `data[column*rows + row]`. -/
def Mat_GetElement (mm : Matrix) (row column : ℕ) : ℚ :=
  match mm with
  | none => 0
  | some m =>
      if row ≥ m.rowsNumber ∨ column ≥ m.columnsNumber then 0
      else lGet m.data (column * m.rowsNumber + row)

/-- matrix.c lines 132-139: `Mat_SetElement` — no-op for NULL or an
out-of-range position, else `data[column*rows + row] = value`.  Returns the
post-call state of the matrix object. -/
def Mat_SetElement (mm : Matrix) (row column : ℕ) (value : ℚ) : Matrix :=
  match mm with
  | none => none
  | some m =>
      if row ≥ m.rowsNumber ∨ column ≥ m.columnsNumber then some m
      else some ⟨m.data.set (column * m.rowsNumber + row) value,
                 m.rowsNumber, m.columnsNumber⟩

/-- matrix.c lines 165-191: `Mat_Resize` — NULL becomes a zero-filled
create; otherwise `realloc` when the element count grows, stage the old
content in `auxArray`, `memset` the buffer to zero over the new count, then
copy back every old `(row, column)` with
`data[column*newRows + row] = aux[column*oldRows + row]` over ALL old rows
and columns, and finally install the new dimensions.  The source performs no
size-limit check on this path. -/
def Mat_Resize (mm : Matrix) (rowsNumber columnsNumber : ℕ) : Matrix :=
  match mm with
  | none => Mat_Create none rowsNumber columnsNumber
  | some m =>
      let oldCount := m.rowsNumber * m.columnsNumber
      let newCount := rowsNumber * columnsNumber
      let d0 := if oldCount < newCount then listRealloc m.data newCount
                else m.data
      let auxArray := d0.take oldCount
      let d1 := memsetZero d0 newCount
      let d2 := writePairs m.columnsNumber m.rowsNumber
                  (fun column row => column * rowsNumber + row)
                  (fun column row => lGet auxArray (column * m.rowsNumber + row))
                  d1
      some ⟨d2, rowsNumber, columnsNumber⟩

/-- matrix.c lines 193-205: `Mat_Scale` with `matrix != result` — NULL check
on `matrix` only; `result` is dereferenced unchecked (crash when NULL).  The
loop bound is the RESULT's pre-call element count
(`result->rowsNumber * result->columnsNumber`), after which the matrix's
dimensions are copied into the result.  Payload: (value returned by the C
function, post-call state of the result object). -/
def Mat_Scale (matrix : Matrix) (scalar : ℚ) (result : Matrix) :
    CRes (Matrix × Matrix) :=
  match matrix with
  | none => .ok (none, result)
  | some m =>
      match result with
      | none => .crash
      | some r =>
          let elementsNumber := r.rowsNumber * r.columnsNumber
          let d := writeSeq elementsNumber (fun i => i)
                     (fun i => scalar * lGet m.data i) r.data
          let r' : MatrixData := ⟨d, m.rowsNumber, m.columnsNumber⟩
          .ok (some r', some r')

/-- matrix.c lines 193-205: `Mat_Scale` called with `result == matrix` (the
aliased pointer case): the single shared object is read and written in
place; index `i` is read before it is written and later iterations do not
revisit it, so the loop is an in-place elementwise update.  The trailing
dimension assignments copy the fields onto themselves. -/
def Mat_Scale_alias (m : MatrixData) (scalar : ℚ) : MatrixData :=
  ⟨(List.range (m.rowsNumber * m.columnsNumber)).foldl
      (fun b i => b.set i (scalar * lGet b i)) m.data,
   m.rowsNumber, m.columnsNumber⟩

/-- matrix.c lines 207-221: `Mat_Sum` — NULL checks on both inputs and a
dimension-equality check, all before `result` is first dereferenced; then
result dimensions are installed and the weighted elementwise sum is written
over the (fresh) result element count. -/
def Mat_Sum (matrix_1 : Matrix) (weight_1 : ℚ) (matrix_2 : Matrix)
    (weight_2 : ℚ) (result : Matrix) : CRes (Matrix × Matrix) :=
  match matrix_1, matrix_2 with
  | none, _ => .ok (none, result)
  | _, none => .ok (none, result)
  | some a, some b =>
      if a.rowsNumber ≠ b.rowsNumber ∨ a.columnsNumber ≠ b.columnsNumber then
        .ok (none, result)
      else
        match result with
        | none => .crash
        | some r =>
            let elementsNumber := a.rowsNumber * a.columnsNumber
            let d := writeSeq elementsNumber (fun i => i)
                       (fun i => weight_1 * lGet a.data i +
                                 weight_2 * lGet b.data i) r.data
            let r' : MatrixData := ⟨d, a.rowsNumber, a.columnsNumber⟩
            .ok (some r', some r')

/-- Modelled from the spec: the external BLAS dense-multiply kernel `dgemm_`
(declared matrix.c line 35, contract in spec §6) —
`C = alpha * op(A) * op(B) + beta * C` over column-major buffers with
explicit leading dimensions; `op` transposes when the corresponding flag is
`'T'`.  `beta = 0` means the prior content of `C` is not read (the source
always passes `beta = 0`, so the scratch output is a pure product). -/
def dgemm (tA tB : Char) (m n k : ℕ) (alpha : ℚ) (A : List ℚ) (ldA : ℕ)
    (B : List ℚ) (ldB : ℕ) (beta : ℚ) (C : List ℚ) (ldC : ℕ) : List ℚ :=
  writePairs n m (fun j i => i + j * ldC)
    (fun j i =>
      alpha * ((List.range k).foldl
        (fun s l =>
          s + (if tA = 'T' then lGet A (l + i * ldA) else lGet A (i + l * ldA)) *
              (if tB = 'T' then lGet B (j + l * ldB) else lGet B (l + j * ldB)))
        0) +
      (if beta = 0 then 0 else beta * lGet C (i + j * ldC)))
    C

/-- matrix.c lines 223-248: `Mat_Dot` — NULL checks on both inputs, then the
coupling-length check, both before `result` is dereferenced; on success the
result dimensions are installed, the product is computed by `dgemm_` into a
scratch buffer (`alpha = 1, beta = 0`, strides chosen by the transpose
flags), and the scratch is copied into the result buffer. -/
def Mat_Dot (matrix_1 : Matrix) (transpose_1 : Char) (matrix_2 : Matrix)
    (transpose_2 : Char) (result : Matrix) : CRes (Matrix × Matrix) :=
  match matrix_1, matrix_2 with
  | none, _ => .ok (none, result)
  | _, none => .ok (none, result)
  | some a, some b =>
      let couplingLength :=
        if transpose_1 = MATRIX_TRANSPOSE then a.rowsNumber
        else a.columnsNumber
      if couplingLength ≠ (if transpose_2 = MATRIX_TRANSPOSE then b.columnsNumber
                           else b.rowsNumber) then
        .ok (none, result)
      else
        match result with
        | none => .crash
        | some r =>
            let rRows := if transpose_1 = MATRIX_TRANSPOSE then a.columnsNumber
                         else a.rowsNumber
            let rCols := if transpose_2 = MATRIX_TRANSPOSE then b.rowsNumber
                         else b.columnsNumber
            let stride_1 := if transpose_1 = MATRIX_TRANSPOSE then couplingLength
                            else rRows
            let stride_2 := if transpose_2 = MATRIX_TRANSPOSE then rCols
                            else couplingLength
            let auxArray := dgemm transpose_1 transpose_2 rRows rCols
                              couplingLength 1 a.data stride_1 b.data stride_2 0
                              (List.replicate (rRows * rCols) 0) rRows
            let r' : MatrixData :=
              ⟨memcpyInto r.data auxArray (rRows * rCols), rRows, rCols⟩
            .ok (some r', some r')

/-- Modelled from the spec: row-pivot search of the LU kernel (spec §6 /
glossary): the first row index in `k..n-1` carrying the largest absolute
value in column `k` of an `n × n` column-major buffer. -/
def pivotRow (a : List ℚ) (n k : ℕ) : ℕ :=
  (List.range (n - k)).foldl
    (fun best off =>
      if |lGet a ((k + off) + k * n)| > |lGet a (best + k * n)| then k + off
      else best)
    k

/-- Modelled from the spec: swap rows `r1` and `r2` of an `n × n`
column-major buffer (the row interchange recorded by the pivot array). -/
def swapRowsBuf (a : List ℚ) (n r1 r2 : ℕ) : List ℚ :=
  writeSeq n (fun j => r1 + j * n) (fun j => lGet a (r2 + j * n))
    (writeSeq n (fun j => r2 + j * n) (fun j => lGet a (r1 + j * n)) a)

/-- Modelled from the spec: one Gaussian elimination step of the LU kernel —
store the multipliers `a[i][k] / a[k][k]` below the pivot and update the
trailing submatrix. -/
def elimStep (a : List ℚ) (n k : ℕ) : List ℚ :=
  let piv := lGet a (k + k * n)
  (List.range (n - k - 1)).foldl
    (fun b off =>
      let i := k + 1 + off
      let mult := lGet b (i + k * n) / piv
      let b1 := b.set (i + k * n) mult
      (List.range (n - k - 1)).foldl
        (fun b2 off2 =>
          let j := k + 1 + off2
          b2.set (i + j * n) (lGet b2 (i + j * n) - mult * lGet b2 (k + j * n)))
        b1)
    a

/-- Modelled from the spec: the external LAPACK LU-decomposition kernel
`dgetrf_` (declared matrix.c line 37, contract in spec §6) on a square
`n × n` column-major buffer: partial pivoting with a 1-BASED pivot array
(entry `k` holds `p+1` when step `k` interchanged rows `k` and `p`; LAPACK
convention, as the claim's external-interface contract states), factoring in
place, with a positive status naming the first zero pivot. -/
def dgetrf (n : ℕ) (a0 : List ℚ) : List ℚ × List ℕ × ℕ :=
  (List.range n).foldl
    (fun st k =>
      let a := st.1
      let p := pivotRow a n k
      let a1 := swapRowsBuf a n k p
      if lGet a1 (k + k * n) = 0 then
        (a1, st.2.1 ++ [p + 1], if st.2.2 = 0 then k + 1 else st.2.2)
      else
        (elimStep a1 n k, st.2.1 ++ [p + 1], st.2.2))
    (a0, [], 0)

/-- matrix.c lines 250-272: `Mat_Determinant` — 0.0 for NULL or non-square;
otherwise the matrix is copied into scratch, `dgetrf_` factors it, and the
determinant is the product of the diagonal of the factored buffer, negated
once at EVERY loop index `pivotIndex` where
`pivotArray[pivotIndex] != pivotIndex` (the source compares the 1-based
pivot entry against the 0-based loop index). -/
def Mat_Determinant (mm : Matrix) : ℚ :=
  match mm with
  | none => 0
  | some m =>
      if m.rowsNumber ≠ m.columnsNumber then 0
      else
        let auxArray := m.data.take (m.rowsNumber * m.columnsNumber)
        let st := dgetrf m.rowsNumber auxArray
        (List.range m.rowsNumber).foldl
          (fun determinant pivotIndex =>
            let d1 := determinant * lGet st.1 (pivotIndex * m.rowsNumber + pivotIndex)
            if st.2.1.getD pivotIndex 0 ≠ pivotIndex then -d1 else d1)
          1

/-- matrix.c lines 274-292, core of `Mat_Transpose` with
`matrix != result`: result dimensions are the swapped shape, the transposed
arrangement is staged in a zeroed scratch buffer
(`aux[column*newRows + row] = matrix->data[row*matrixRows + column]`), then
copied into the result buffer. -/
def transposeD (m r : MatrixData) : MatrixData :=
  let rRows := m.columnsNumber
  let rCols := m.rowsNumber
  let auxArray := writePairs rRows rCols
                    (fun row column => column * rRows + row)
                    (fun row column => lGet m.data (row * m.rowsNumber + column))
                    (List.replicate (rRows * rCols) 0)
  ⟨memcpyInto r.data auxArray (rRows * rCols), rRows, rCols⟩

/-- matrix.c lines 274-292: `Mat_Transpose` with `matrix != result` — NULL
check on `matrix` only; `result` is dereferenced unchecked (crash when
NULL). -/
def Mat_Transpose (matrix : Matrix) (result : Matrix) :
    CRes (Matrix × Matrix) :=
  match matrix with
  | none => .ok (none, result)
  | some m =>
      match result with
      | none => .crash
      | some r =>
          let r' := transposeD m r
          .ok (some r', some r')

/-- matrix.c lines 274-292: `Mat_Transpose` called with `result == matrix`:
line 280 overwrites `rowsNumber` of the shared object with its column
count, so line 281 then copies that SAME value into `columnsNumber`, and the
staging loop reads `matrix->data` with the already-updated row count. -/
def Mat_Transpose_alias (m : MatrixData) : MatrixData :=
  let rRows := m.columnsNumber
  let rCols := rRows
  let auxArray := writePairs rRows rCols
                    (fun row column => column * rRows + row)
                    (fun row column => lGet m.data (row * rRows + column))
                    (List.replicate (rRows * rCols) 0)
  ⟨memcpyInto m.data auxArray (rRows * rCols), rRows, rCols⟩

/-- Modelled from the spec: first zero diagonal entry (1-based) of an LU
buffer, 0 when none — the singularity status of the LU-inverse kernel. -/
def luDiagZero (n : ℕ) (lu : List ℚ) : ℕ :=
  (List.range n).foldl
    (fun acc k => if acc = 0 ∧ lGet lu (k + k * n) = 0 then k + 1 else acc) 0

/-- Modelled from the spec: the canonical basis vector `e_j` of length `n`. -/
def unitVec (n j : ℕ) : List ℚ :=
  (List.range n).map (fun i => if i = j then 1 else 0)

/-- Modelled from the spec: apply the recorded row interchanges of the pivot
array (1-based entries) to a right-hand-side vector, in forward order. -/
def applyPivots (ipiv : List ℕ) (b : List ℚ) : List ℚ :=
  (List.range ipiv.length).foldl
    (fun v k =>
      let p := ipiv.getD k 1 - 1
      let t := lGet v k
      (v.set k (lGet v p)).set p t)
    b

/-- Modelled from the spec: forward substitution with the unit lower factor
stored below the diagonal of the LU buffer. -/
def forwardSubst (n : ℕ) (lu b : List ℚ) : List ℚ :=
  (List.range n).foldl
    (fun y i =>
      y.set i (lGet y i -
        (List.range i).foldl (fun s j => s + lGet lu (i + j * n) * lGet y j) 0))
    b

/-- Modelled from the spec: back substitution with the upper factor stored
on and above the diagonal of the LU buffer. -/
def backSubst (n : ℕ) (lu y : List ℚ) : List ℚ :=
  (List.range n).foldl
    (fun x off =>
      let i := n - 1 - off
      x.set i ((lGet x i -
        (List.range off).foldl
          (fun s off2 => let j := n - 1 - off2
                         s + lGet lu (i + j * n) * lGet x j) 0) /
        lGet lu (i + i * n)))
    y

/-- Modelled from the spec: the external LAPACK LU-inverse kernel `dgetri_`
(declared matrix.c line 39, contract in spec §6) — from the LU factors and
the 1-based pivot array, compute the inverse (here column by column, by
solving `A x = e_j` through the recorded interchanges and the two
substitutions) in place, with a nonzero status on a zero pivot. -/
def dgetri (n : ℕ) (lu : List ℚ) (ipiv : List ℕ) : List ℚ × ℕ :=
  let info := luDiagZero n lu
  if info ≠ 0 then (lu, info)
  else
    (writePairs n n (fun j i => i + j * n)
       (fun j i =>
         lGet (backSubst n lu (forwardSubst n lu (applyPivots ipiv (unitVec n j))))
           i)
       lu,
     0)

/-- matrix.c lines 294-322: `Mat_Inverse` with `matrix != result` — NULL
checks on both handles and the square check all precede any mutation of
`result`; then the matrix dimensions and content are copied into the
result, `dgetrf_` factors the result buffer in place (NULL return on
nonzero status), and `dgetri_` computes the inverse in place (NULL return
on nonzero status).  Payload: (returned value, post-call result state). -/
def Mat_Inverse (matrix : Matrix) (result : Matrix) : Matrix × Matrix :=
  match matrix, result with
  | none, r => (none, r)
  | some _, none => (none, none)
  | some m, some r =>
      if m.rowsNumber ≠ m.columnsNumber then (none, some r)
      else
        let d1 := memcpyInto r.data m.data (m.rowsNumber * m.columnsNumber)
        let st := dgetrf m.rowsNumber d1
        let r2 : MatrixData := ⟨st.1, m.rowsNumber, m.columnsNumber⟩
        if st.2.2 ≠ 0 then (none, some r2)
        else
          let st2 := dgetri m.rowsNumber st.1 st.2.1
          let r3 : MatrixData := ⟨st2.1, m.rowsNumber, m.columnsNumber⟩
          if st2.2 ≠ 0 then (none, some r3) else (some r3, some r3)

/-- matrix.c lines 294-322: `Mat_Inverse` called with `result == matrix`:
the `matrix != result` copy block is skipped and the kernels run directly
on the single shared object's buffer. -/
def Mat_Inverse_alias (mm : Matrix) : Matrix × Matrix :=
  match mm with
  | none => (none, none)
  | some m =>
      if m.rowsNumber ≠ m.columnsNumber then (none, some m)
      else
        let st := dgetrf m.rowsNumber m.data
        let r2 : MatrixData := ⟨st.1, m.rowsNumber, m.columnsNumber⟩
        if st.2.2 ≠ 0 then (none, some r2)
        else
          let st2 := dgetri m.rowsNumber st.1 st.2.1
          let r3 : MatrixData := ⟨st2.1, m.rowsNumber, m.columnsNumber⟩
          if st2.2 ≠ 0 then (none, some r3) else (some r3, some r3)

/-! ## Helper lemmas about the buffer-write combinators -/

theorem lGet_eq_getElem {l : List ℚ} {i : ℕ} (h : i < l.length) :
    l[i]? = some (lGet l i) := by
  simp [lGet, List.getElem?_eq_getElem h]

theorem writeSeq_succ (n : ℕ) (idx : ℕ → ℕ) (val : ℕ → ℚ) (l : List ℚ) :
    writeSeq (n + 1) idx val l = (writeSeq n idx val l).set (idx n) (val n) := by
  unfold writeSeq
  rw [List.range_succ, List.foldl_append]
  rfl

theorem writeSeq_length (n : ℕ) (idx : ℕ → ℕ) (val : ℕ → ℚ) (l : List ℚ) :
    (writeSeq n idx val l).length = l.length := by
  induction n with
  | zero => rfl
  | succ k ih => rw [writeSeq_succ, List.length_set, ih]

theorem writeSeq_getElem?_ne (n : ℕ) (idx : ℕ → ℕ) (val : ℕ → ℚ) (l : List ℚ)
    (j : ℕ) (h : ∀ i, i < n → idx i ≠ j) :
    (writeSeq n idx val l)[j]? = l[j]? := by
  induction n with
  | zero => rfl
  | succ k ih =>
    rw [writeSeq_succ, List.getElem?_set_ne (h k (Nat.lt_succ_self k))]
    exact ih (fun i hi => h i (Nat.lt_succ_of_lt hi))

theorem writeSeq_getElem?_hit (n : ℕ) (idx : ℕ → ℕ) (val : ℕ → ℚ) (l : List ℚ)
    (i : ℕ) (hi : i < n) (huniq : ∀ i', i' < n → idx i' = idx i → i' = i)
    (hlen : idx i < l.length) :
    (writeSeq n idx val l)[idx i]? = some (val i) := by
  induction n with
  | zero => omega
  | succ k ih =>
    rw [writeSeq_succ]
    by_cases hik : i = k
    · subst hik
      rw [List.getElem?_set_self]
      simp [writeSeq_length, hlen]
    · have hik' : i < k := by
        rcases Nat.lt_succ_iff_lt_or_eq.1 hi with h' | h'
        · exact h'
        · exact absurd h' hik
      have hne : idx k ≠ idx i := fun he =>
        hik (((huniq k (Nat.lt_succ_self k) he).symm).symm ▸ rfl)
      rw [List.getElem?_set_ne hne]
      exact ih hik' (fun i' hi' he => huniq i' (Nat.lt_succ_of_lt hi') he)

theorem writePairs_succ (o inner : ℕ) (idx : ℕ → ℕ → ℕ) (val : ℕ → ℕ → ℚ)
    (l : List ℚ) :
    writePairs (o + 1) inner idx val l =
      writeSeq inner (idx o) (val o) (writePairs o inner idx val l) := by
  unfold writePairs
  rw [List.range_succ, List.foldl_append]
  rfl

theorem writePairs_length (o inner : ℕ) (idx : ℕ → ℕ → ℕ) (val : ℕ → ℕ → ℚ)
    (l : List ℚ) : (writePairs o inner idx val l).length = l.length := by
  induction o with
  | zero => rfl
  | succ k ih => rw [writePairs_succ, writeSeq_length, ih]

theorem writePairs_getElem?_ne (o inner : ℕ) (idx : ℕ → ℕ → ℕ)
    (val : ℕ → ℕ → ℚ) (l : List ℚ) (j : ℕ)
    (h : ∀ a b, a < o → b < inner → idx a b ≠ j) :
    (writePairs o inner idx val l)[j]? = l[j]? := by
  induction o with
  | zero => rfl
  | succ k ih =>
    rw [writePairs_succ,
      writeSeq_getElem?_ne _ _ _ _ _ (fun b hb => h k b (Nat.lt_succ_self k) hb)]
    exact ih (fun a b ha hb => h a b (Nat.lt_succ_of_lt ha) hb)

theorem writePairs_getElem?_hit (o inner : ℕ) (idx : ℕ → ℕ → ℕ)
    (val : ℕ → ℕ → ℚ) (l : List ℚ) (a b : ℕ) (ha : a < o) (hb : b < inner)
    (huniq : ∀ a' b', a' < o → b' < inner → idx a' b' = idx a b →
      a' = a ∧ b' = b)
    (hlen : idx a b < l.length) :
    (writePairs o inner idx val l)[idx a b]? = some (val a b) := by
  induction o with
  | zero => omega
  | succ k ih =>
    rw [writePairs_succ]
    by_cases hak : a = k
    · subst hak
      exact writeSeq_getElem?_hit inner (idx a) (val a) _ b hb
        (fun b' hb' he => ((huniq a b' (Nat.lt_succ_self a) hb' he).2))
        (by rw [writePairs_length]; exact hlen)
    · have hak' : a < k := by
        rcases Nat.lt_succ_iff_lt_or_eq.1 ha with h' | h'
        · exact h'
        · exact absurd h' hak
      rw [writeSeq_getElem?_ne _ _ _ _ _
        (fun b' hb' he => hak (huniq k b' (Nat.lt_succ_self k) hb' he).1.symm)]
      exact ih hak' (fun a' b' ha' hb' he => huniq a' b' (Nat.lt_succ_of_lt ha') hb' he)

/-! ## Column-major index arithmetic -/

theorem colMajor_lt {R C r c : ℕ} (hr : r < R) (hc : c < C) :
    c * R + r < R * C := by
  calc c * R + r < c * R + R := by omega
    _ = (c + 1) * R := by ring
    _ ≤ C * R := Nat.mul_le_mul_right R hc
    _ = R * C := Nat.mul_comm C R

theorem colMajor_inj {R c1 r1 c2 r2 : ℕ} (h1 : r1 < R) (h2 : r2 < R)
    (he : c1 * R + r1 = c2 * R + r2) : c1 = c2 ∧ r1 = r2 := by
  have hmod : ∀ c r : ℕ, r < R → (c * R + r) % R = r := fun c r hrR => by
    rw [Nat.mul_comm c R, Nat.mul_add_mod]
    exact Nat.mod_eq_of_lt hrR
  have hr : r1 = r2 := by
    have := congrArg (fun x => x % R) he
    simpa [hmod c1 r1 h1, hmod c2 r2 h2] using this
  subst hr
  have hc : c1 * R = c2 * R := by omega
  have hR : 0 < R := by omega
  exact ⟨Nat.eq_of_mul_eq_mul_right hR hc, rfl⟩

theorem colMajor_decomp {R C j : ℕ} (hj : j < R * C) :
    j % R < R ∧ j / R < C ∧ (j / R) * R + (j % R) = j := by
  have hR : 0 < R := by
    rcases Nat.eq_zero_or_pos R with h | h
    · subst h; simp at hj
    · exact h
  refine ⟨Nat.mod_lt j hR, ?_, ?_⟩
  · rw [Nat.div_lt_iff_lt_mul hR, Nat.mul_comm]
    exact hj
  · have h1 := Nat.div_add_mod j R
    have h2 : R * (j / R) = (j / R) * R := Nat.mul_comm R (j / R)
    omega

theorem lGet_set_eq {l : List ℚ} {i : ℕ} (v : ℚ) (h : i < l.length) :
    lGet (l.set i v) i = v := by
  simp [lGet, List.getElem?_set_self, h]

theorem lGet_set_ne {l : List ℚ} {i j : ℕ} (v : ℚ) (h : i ≠ j) :
    lGet (l.set i v) j = lGet l j := by
  simp [lGet, List.getElem?_set_ne h]

theorem lGet_writeSeq_ne (n : ℕ) (idx : ℕ → ℕ) (val : ℕ → ℚ) (l : List ℚ)
    (j : ℕ) (h : ∀ i, i < n → idx i ≠ j) :
    lGet (writeSeq n idx val l) j = lGet l j := by
  simp [lGet, writeSeq_getElem?_ne n idx val l j h]

theorem matrixData_ext {a b : MatrixData} (h1 : a.data = b.data)
    (h2 : a.rowsNumber = b.rowsNumber) (h3 : a.columnsNumber = b.columnsNumber) :
    a = b := by
  cases a
  cases b
  simp_all

/-- The self-reading in-place loop of the aliased `Mat_Scale` equals the
static-read loop: each index is read before it is written and never
revisited. -/
theorem scale_alias_fold (k : ℚ) (l : List ℚ) :
    ∀ n, n ≤ l.length →
      (List.range n).foldl (fun b i => b.set i (k * lGet b i)) l =
      writeSeq n (fun i => i) (fun i => k * lGet l i) l := by
  intro n
  induction n with
  | zero => intro _; rfl
  | succ p ih =>
    intro h
    rw [List.range_succ, List.foldl_append]
    simp only [List.foldl_cons, List.foldl_nil]
    rw [ih (by omega), writeSeq_succ,
      lGet_writeSeq_ne p (fun i => i) _ l p (fun i hi => by show i ≠ p; omega)]

/-- Two identity-indexed full overwrites of same-length buffers agree. -/
theorem writeSeq_full_ext (n : ℕ) (val : ℕ → ℚ) (l1 l2 : List ℚ)
    (h1 : l1.length = n) (h2 : l2.length = n) :
    writeSeq n (fun i => i) val l1 = writeSeq n (fun i => i) val l2 := by
  apply List.ext_getElem?
  intro j
  by_cases hj : j < n
  · have e1 := writeSeq_getElem?_hit n (fun i => i) val l1 j hj
      (fun i' _ he => he) (by show j < l1.length; omega)
    have e2 := writeSeq_getElem?_hit n (fun i => i) val l2 j hj
      (fun i' _ he => he) (by show j < l2.length; omega)
    rw [e1, e2]
  · rw [writeSeq_getElem?_ne n _ val l1 j (fun i hi => by show i ≠ j; omega),
      writeSeq_getElem?_ne n _ val l2 j (fun i hi => by show i ≠ j; omega),
      List.getElem?_eq_none (by omega), List.getElem?_eq_none (by omega)]

theorem colMajor_surj {R C j : ℕ} (hj : j < R * C) :
    ∃ r c, r < R ∧ c < C ∧ c * R + r = j := by
  obtain ⟨h1, h2, h3⟩ := colMajor_decomp hj
  exact ⟨j % R, j / R, h1, h2, h3⟩

/-- `writeSeq_getElem?_hit` restated with an explicit target index, to avoid
beta-redex friction at use sites. -/
theorem writeSeq_hit_at (n : ℕ) (idx : ℕ → ℕ) (val : ℕ → ℚ) (l : List ℚ)
    (i j : ℕ) (hi : i < n) (hj : idx i = j)
    (huniq : ∀ i', i' < n → idx i' = j → i' = i) (hlen : j < l.length) :
    (writeSeq n idx val l)[j]? = some (val i) := by
  have h0 := writeSeq_getElem?_hit n idx val l i hi
    (fun i' hi' he => huniq i' hi' (hj ▸ he)) (hj.symm ▸ hlen)
  rw [hj] at h0
  exact h0

/-- `writePairs_getElem?_hit` restated with an explicit target index, to
avoid beta-redex friction at use sites. -/
theorem writePairs_hit_at (o inner : ℕ) (idx : ℕ → ℕ → ℕ) (val : ℕ → ℕ → ℚ)
    (l : List ℚ) (a b j : ℕ) (ha : a < o) (hb : b < inner) (hj : idx a b = j)
    (huniq : ∀ a' b', a' < o → b' < inner → idx a' b' = j → a' = a ∧ b' = b)
    (hlen : j < l.length) :
    (writePairs o inner idx val l)[j]? = some (val a b) := by
  have h0 := writePairs_getElem?_hit o inner idx val l a b ha hb
    (fun a' b' ha' hb' he => huniq a' b' ha' hb' (hj ▸ he)) (hj.symm ▸ hlen)
  rw [hj] at h0
  exact h0

theorem memcpyInto_of_lengths {dst src : List ℚ} {n : ℕ}
    (hs : src.length ≤ n) (hd : dst.length ≤ n) : memcpyInto dst src n = src := by
  unfold memcpyInto
  rw [List.take_of_length_le hs, List.drop_eq_nil_of_le hd, List.append_nil]

/-- The buffer produced by `transposeD` when the destination allocation is
exactly the element count: the staged scratch buffer itself. -/
theorem transposeD_data (m r : MatrixData)
    (hr : r.data.length ≤ m.columnsNumber * m.rowsNumber) :
    (transposeD m r).data =
      writePairs m.columnsNumber m.rowsNumber
        (fun row column => column * m.columnsNumber + row)
        (fun row column => lGet m.data (row * m.rowsNumber + column))
        (List.replicate (m.columnsNumber * m.rowsNumber) 0) := by
  unfold transposeD
  apply memcpyInto_of_lengths
  · rw [writePairs_length, List.length_replicate]
  · exact hr

/-- Core of the transpose involution: two staged transposes through
exactly-sized destinations restore the original matrix. -/
theorem transposeD_involution (m b c : MatrixData)
    (hm : m.data.length = m.rowsNumber * m.columnsNumber)
    (hb : b.data.length = m.rowsNumber * m.columnsNumber)
    (hc : c.data.length = m.rowsNumber * m.columnsNumber) :
    transposeD (transposeD m b) c = m := by
  have hb' : b.data.length ≤ m.columnsNumber * m.rowsNumber := by
    rw [Nat.mul_comm]; omega
  have hB := transposeD_data m b hb'
  have hc' : c.data.length ≤
      (transposeD m b).columnsNumber * (transposeD m b).rowsNumber := by
    show c.data.length ≤ m.rowsNumber * m.columnsNumber
    omega
  have hC := transposeD_data (transposeD m b) c hc'
  refine matrixData_ext ?_ rfl rfl
  rw [hC]
  apply List.ext_getElem?
  intro j
  by_cases hj : j < m.rowsNumber * m.columnsNumber
  · obtain ⟨r0, c0, hr0, hc0, hj0⟩ := colMajor_surj hj
    have houter : (writePairs (transposeD m b).columnsNumber
        (transposeD m b).rowsNumber
        (fun row column => column * (transposeD m b).columnsNumber + row)
        (fun row column => lGet (transposeD m b).data
          (row * (transposeD m b).rowsNumber + column))
        (List.replicate
          ((transposeD m b).columnsNumber * (transposeD m b).rowsNumber) 0))[j]? =
        some (lGet (transposeD m b).data (r0 * m.columnsNumber + c0)) := by
      refine writePairs_hit_at _ _ _ _ _ r0 c0 j ?_ ?_ ?_ ?_ ?_
      · show r0 < m.rowsNumber
        exact hr0
      · show c0 < m.columnsNumber
        exact hc0
      · show c0 * m.rowsNumber + r0 = j
        exact hj0
      · intro a' b' ha' hb2 he
        have ha2 : a' < m.rowsNumber := ha'
        have he2 : b' * m.rowsNumber + a' = j := he
        have h2 := @colMajor_inj m.rowsNumber b' a' c0 r0 ha2 hr0 (by omega)
        exact ⟨h2.2, h2.1⟩
      · show j < (List.replicate
          ((transposeD m b).columnsNumber * (transposeD m b).rowsNumber)
          (0 : ℚ)).length
        rw [List.length_replicate]
        show j < m.rowsNumber * m.columnsNumber
        exact hj
    rw [houter]
    have hinner : (writePairs m.columnsNumber m.rowsNumber
        (fun row column => column * m.columnsNumber + row)
        (fun row column => lGet m.data (row * m.rowsNumber + column))
        (List.replicate (m.columnsNumber * m.rowsNumber) 0))[r0 *
          m.columnsNumber + c0]? =
        some (lGet m.data (c0 * m.rowsNumber + r0)) := by
      refine writePairs_hit_at _ _ _ _ _ c0 r0 _ hc0 hr0 rfl ?_ ?_
      · intro a' b' ha' hb2 he
        have h2 := colMajor_inj ha' hc0 he
        exact ⟨h2.2, h2.1⟩
      · rw [List.length_replicate]
        exact colMajor_lt hc0 hr0
    have hBread : lGet (transposeD m b).data (r0 * m.columnsNumber + c0) =
        lGet m.data (c0 * m.rowsNumber + r0) := by
      rw [hB]
      show ((writePairs m.columnsNumber m.rowsNumber
        (fun row column => column * m.columnsNumber + row)
        (fun row column => lGet m.data (row * m.rowsNumber + column))
        (List.replicate (m.columnsNumber * m.rowsNumber) 0))[r0 *
          m.columnsNumber + c0]?).getD 0 = lGet m.data (c0 * m.rowsNumber + r0)
      rw [hinner]
      rfl
    rw [hBread, ← hj0, lGet_eq_getElem]
    exact lt_of_lt_of_le (colMajor_lt hr0 hc0) (le_of_eq hm.symm)
  · rw [writePairs_getElem?_ne _ _ _ _ _ j
      (fun a' b' ha' hb2 => by
        intro he
        apply hj
        have ha2 : a' < m.rowsNumber := ha'
        have hb3 : b' < m.columnsNumber := hb2
        have he2 : b' * m.rowsNumber + a' = j := he
        have := colMajor_lt ha2 hb3
        omega)]
    rw [List.getElem?_eq_none, List.getElem?_eq_none]
    · omega
    · rw [List.length_replicate]
      show m.rowsNumber * m.columnsNumber ≤ j
      omega

/-! ## Claim theorems -/

set_option maxRecDepth 4000

/-- Claim C1: REFUTED (code bug) — a creation whose requested element count
exceeds `MATRIX_SIZE_MAX = 2500` can still succeed: `Mat_Create` compares
each dimension separately against the limit (matrix.c line 51), so
`Mat_Create(NULL, 51, 51)` builds a live matrix of `51 * 51 = 2601`
elements, and `Mat_Resize` performs no limit check at all on a non-NULL
matrix, so resizing a live 1×1 matrix to 51×51 also succeeds. -/
theorem mat_create_exceeds_max :
    (Mat_Create none 51 51).isSome = true ∧
    (Mat_Create none 51 51).map (fun m => m.rowsNumber * m.columnsNumber) =
      some 2601 ∧
    (Mat_Resize (some ⟨[0], 1, 1⟩) 51 51).isSome = true ∧
    (Mat_Resize (some ⟨[0], 1, 1⟩) 51 51).map
      (fun m => m.rowsNumber * m.columnsNumber) = some 2601 ∧
    MATRIX_SIZE_MAX < 2601 := by
  refine ⟨?_, ?_, ?_, ?_, by norm_num [MATRIX_SIZE_MAX]⟩ <;> with_unfolding_all rfl

/-- Claim C2: REFUTED (code bug) — `Mat_Determinant` on the order-1 identity
returns `-1.0`, not `1.0`: the loop at matrix.c line 268 negates whenever
the 1-BASED pivot entry differs from the 0-BASED loop index, which holds at
every index, so the identity of order `n` yields `(-1)^n`. -/
theorem mat_determinant_identity_order1 :
    Mat_CreateSquare 1 MATRIX_IDENTITY = CRes.ok (some ⟨[1], 1, 1⟩) ∧
    Mat_Determinant (some ⟨[1], 1, 1⟩) = -1 ∧
    Mat_Determinant (some ⟨[1, 0, 0, 0, 1, 0, 0, 0, 1], 3, 3⟩) = -1 ∧
    (-1 : ℚ) ≠ 1 := by
  refine ⟨?_, ?_, ?_, by norm_num⟩ <;> with_unfolding_all rfl

/-- Claim C4: REFUTED (code bug) — resizing a live 3×1 matrix with value 7
at position `(1, 0)` to 1×5 leaves the stale value 7 in the newly
introduced cell `(0, 1)` instead of zero-filling it: the copy-back loop at
matrix.c lines 180-184 runs over ALL old rows and columns rather than only
those still in bounds. -/
theorem mat_resize_stale_fill :
    Mat_Resize (some ⟨[0, 7, 9], 3, 1⟩) 1 5 = some ⟨[0, 7, 9, 0, 0], 1, 5⟩ ∧
    Mat_GetElement (some ⟨[0, 7, 9, 0, 0], 1, 5⟩) 0 1 = 7 ∧
    Mat_GetElement (some ⟨[0, 7, 9], 3, 1⟩) 1 0 = 7 ∧
    (7 : ℚ) ≠ 0 := by
  refine ⟨?_, ?_, ?_, by norm_num⟩ <;> with_unfolding_all rfl

/-- Claim C5: REFUTED (code bug) — `Mat_CreateSquare` with an over-limit
size and identity kind dereferences the NULL handle returned by the failed
inner `Mat_Create` (matrix.c line 73) instead of returning NULL. -/
theorem mat_createsquare_nullderef :
    Mat_CreateSquare 2501 MATRIX_IDENTITY = CRes.crash ∧
    2501 > MATRIX_SIZE_MAX ∧
    Mat_Scale (some ⟨[1], 1, 1⟩) 2 none = CRes.crash := by
  refine ⟨?_, by norm_num [MATRIX_SIZE_MAX], ?_⟩ <;> with_unfolding_all rfl

/-- Claim C10: CONFIRMED — on a live matrix, an in-bounds `Mat_SetElement`
followed by `Mat_GetElement` at the same position returns exactly the
written value, every other position reads its previous value, and the
dimensions are unchanged. -/
theorem mat_set_get_element (m : MatrixData) (row col : ℕ) (v : ℚ)
    (hm : m.data.length = m.rowsNumber * m.columnsNumber)
    (hr : row < m.rowsNumber) (hc : col < m.columnsNumber) :
    ∃ m', Mat_SetElement (some m) row col v = some m' ∧
      m'.rowsNumber = m.rowsNumber ∧ m'.columnsNumber = m.columnsNumber ∧
      Mat_GetElement (some m') row col = v ∧
      ∀ r' c', ¬(r' = row ∧ c' = col) →
        Mat_GetElement (some m') r' c' = Mat_GetElement (some m) r' c' := by
  have hcond : ¬(row ≥ m.rowsNumber ∨ col ≥ m.columnsNumber) := by omega
  refine ⟨⟨m.data.set (col * m.rowsNumber + row) v,
    m.rowsNumber, m.columnsNumber⟩, ?_, rfl, rfl, ?_, ?_⟩
  · simp only [Mat_SetElement]
    rw [if_neg hcond]
  · simp only [Mat_GetElement]
    rw [if_neg hcond]
    exact lGet_set_eq v (by rw [hm]; exact colMajor_lt hr hc)
  · intro r' c' hne
    simp only [Mat_GetElement]
    by_cases hin : r' ≥ m.rowsNumber ∨ c' ≥ m.columnsNumber
    · rw [if_pos hin, if_pos hin]
    · rw [if_neg hin, if_neg hin]
      apply lGet_set_ne
      intro he
      have h2 := colMajor_inj hr (by omega : r' < m.rowsNumber) he
      exact hne ⟨h2.2.symm, h2.1.symm⟩

/-- Claim C10 witness: the theorem applied to a concrete 1×2 matrix. -/
theorem mat_set_get_element_witness :
    ∃ m', Mat_SetElement (some ⟨[0, 0], 1, 2⟩) 0 1 5 = some m' ∧
      m'.rowsNumber = (⟨[0, 0], 1, 2⟩ : MatrixData).rowsNumber ∧
      m'.columnsNumber = (⟨[0, 0], 1, 2⟩ : MatrixData).columnsNumber ∧
      Mat_GetElement (some m') 0 1 = 5 ∧
      ∀ r' c', ¬(r' = 0 ∧ c' = 1) →
        Mat_GetElement (some m') r' c' =
          Mat_GetElement (some ⟨[0, 0], 1, 2⟩) r' c' :=
  mat_set_get_element ⟨[0, 0], 1, 2⟩ 0 1 5 rfl (by norm_num) (by norm_num)

/-- Claim C8: CONFIRMED — importing a row-major array `X` of exactly
`rows*cols` values with `Mat_SetData` and exporting with `Mat_GetData`
reproduces `X` on the first `rows*cols` entries of the caller buffer. -/
theorem mat_set_get_roundtrip (m : MatrixData) (X buffer : List ℚ)
    (hm : m.data.length = m.rowsNumber * m.columnsNumber)
    (hX : X.length = m.rowsNumber * m.columnsNumber)
    (hbuf : m.rowsNumber * m.columnsNumber ≤ buffer.length) :
    ∃ out, Mat_GetData (Mat_SetData (some m) X) buffer = some out ∧
      ∀ i, i < m.rowsNumber * m.columnsNumber → out[i]? = X[i]? := by
  refine ⟨_, rfl, ?_⟩
  intro i hi
  show (writePairs m.rowsNumber m.columnsNumber
    (fun row column => row * m.columnsNumber + column)
    (fun row column => lGet (writePairs m.columnsNumber m.rowsNumber
      (fun column row => column * m.rowsNumber + row)
      (fun column row => lGet X (row * m.columnsNumber + column)) m.data)
      (column * m.rowsNumber + row))
    buffer)[i]? = X[i]?
  generalize hD : writePairs m.columnsNumber m.rowsNumber
    (fun column row => column * m.rowsNumber + row)
    (fun column row => lGet X (row * m.columnsNumber + column)) m.data = D
  have hi' : i < m.columnsNumber * m.rowsNumber := by rw [Nat.mul_comm]; omega
  obtain ⟨col0, row0, hcol0, hrow0, hi0⟩ := colMajor_surj hi'
  have hDval : D[col0 * m.rowsNumber + row0]? =
      some (lGet X (row0 * m.columnsNumber + col0)) := by
    rw [← hD]
    refine writePairs_hit_at _ _ _ _ _ col0 row0 _ hcol0 hrow0 rfl ?_ ?_
    · intro a' b' ha' hb' he
      exact colMajor_inj hb' hrow0 he
    · rw [hm]
      exact colMajor_lt hrow0 hcol0
  have houter : (writePairs m.rowsNumber m.columnsNumber
      (fun row column => row * m.columnsNumber + column)
      (fun row column => lGet D (column * m.rowsNumber + row))
      buffer)[i]? = some (lGet D (col0 * m.rowsNumber + row0)) := by
    refine writePairs_hit_at _ _ _ _ _ row0 col0 i hrow0 hcol0 ?_ ?_ ?_
    · show row0 * m.columnsNumber + col0 = i
      exact hi0
    · intro a' b' ha' hb' he
      have he2 : a' * m.columnsNumber + b' = i := he
      exact colMajor_inj hb' hcol0 (by omega)
    · omega
  rw [houter]
  have hval : lGet D (col0 * m.rowsNumber + row0) = lGet X i := by
    show (D[col0 * m.rowsNumber + row0]?).getD 0 = lGet X i
    rw [hDval]
    show lGet X (row0 * m.columnsNumber + col0) = lGet X i
    rw [hi0]
  rw [hval, lGet_eq_getElem (by omega)]

/-- Claim C8 witness: the round trip on a concrete 1×2 matrix. -/
theorem mat_set_get_roundtrip_witness :
    ∃ out, Mat_GetData (Mat_SetData (some ⟨[0, 0], 1, 2⟩) [3, 4]) [0, 0] =
      some out ∧ ∀ i, i < 1 * 2 → out[i]? = ([3, 4] : List ℚ)[i]? :=
  mat_set_get_roundtrip ⟨[0, 0], 1, 2⟩ [3, 4] [0, 0] rfl rfl (by norm_num)

/-- Claim C3: counterexample — `Mat_Scale` iterates over the RESULT's
pre-call element count (matrix.c line 197), not the matrix's: scaling the
live 2×1 matrix with column-major data [5, 7] by 2 into a 1×1 result
writes only one element, so the value `2 * 7` required by the claim at
index 1 is never written anywhere (the result buffer still has length 1),
refuting "result[i] = k * m[i] for every index i across m's element
count". -/
theorem mat_scale_count_cex :
    Mat_Scale (some ⟨[5, 7], 2, 1⟩) 2 (some ⟨[0], 1, 1⟩) =
      CRes.ok (some ⟨[10], 2, 1⟩, some ⟨[10], 2, 1⟩) ∧
    ¬ (∀ i, i < 2 → (([10] : List ℚ))[i]? =
        some (2 * lGet [5, 7] i)) := by
  constructor
  · with_unfolding_all rfl
  · intro h
    have h1 := h 1 (by norm_num)
    simp at h1

/-- Claim C3 (amended): CONFIRMED — when the result's PRE-CALL element
count equals the matrix's element count (the intended preallocated usage),
`Mat_Scale` writes `scalar * matrix[i]` at every index below that count,
copies the matrix's dimensions into the result and returns it; a NULL
matrix fails with NULL, leaving the result untouched. -/
theorem mat_scale_spec (m r : MatrixData) (k : ℚ)
    (hm : m.data.length = m.rowsNumber * m.columnsNumber)
    (hcnt : r.rowsNumber * r.columnsNumber = m.rowsNumber * m.columnsNumber)
    (hrlen : m.rowsNumber * m.columnsNumber ≤ r.data.length) :
    (∃ r', Mat_Scale (some m) k (some r) = CRes.ok (some r', some r') ∧
      r'.rowsNumber = m.rowsNumber ∧ r'.columnsNumber = m.columnsNumber ∧
      ∀ i, i < m.rowsNumber * m.columnsNumber →
        r'.data[i]? = some (k * lGet m.data i)) ∧
    Mat_Scale none k (some r) = CRes.ok (none, some r) := by
  constructor
  · refine ⟨⟨writeSeq (r.rowsNumber * r.columnsNumber) (fun i => i)
      (fun i => k * lGet m.data i) r.data, m.rowsNumber, m.columnsNumber⟩,
      rfl, rfl, rfl, ?_⟩
    intro i hi
    show (writeSeq (r.rowsNumber * r.columnsNumber) (fun i => i)
      (fun i => k * lGet m.data i) r.data)[i]? = some (k * lGet m.data i)
    exact writeSeq_hit_at _ _ _ _ i i (by omega) rfl (fun i' _ he => he)
      (by omega)
  · rfl

/-- Claim C3 (amended) witness: scaling a 2×1 matrix into an equal-count
destination. -/
theorem mat_scale_spec_witness :
    (∃ r', Mat_Scale (some ⟨[5, 7], 2, 1⟩) 2 (some ⟨[0, 0], 2, 1⟩) =
        CRes.ok (some r', some r') ∧
      r'.rowsNumber = (⟨[5, 7], 2, 1⟩ : MatrixData).rowsNumber ∧
      r'.columnsNumber = (⟨[5, 7], 2, 1⟩ : MatrixData).columnsNumber ∧
      ∀ i, i < 2 * 1 →
        r'.data[i]? = some (2 * lGet [5, 7] i)) ∧
    Mat_Scale none 2 (some ⟨[0, 0], 2, 1⟩) =
      CRes.ok (none, some ⟨[0, 0], 2, 1⟩) :=
  mat_scale_spec ⟨[5, 7], 2, 1⟩ ⟨[0, 0], 2, 1⟩ 2 rfl rfl (by norm_num)

/-- Claim C7: CONFIRMED — for every algebraic operation (`Mat_Scale`,
`Mat_Sum`, `Mat_Dot`, `Mat_Transpose`, `Mat_Inverse`), a NULL input matrix
or an input dimension mismatch makes the call return NULL with the result
object's dimensions and contents completely untouched (all of these checks
precede the first write to the result in matrix.c). -/
theorem mat_fail_preserves_result :
    (∀ (k : ℚ) (r : Matrix), Mat_Scale none k r = CRes.ok (none, r)) ∧
    (∀ (w1 w2 : ℚ) (mm r : Matrix),
      Mat_Sum none w1 mm w2 r = CRes.ok (none, r)) ∧
    (∀ (w1 w2 : ℚ) (mm r : Matrix),
      Mat_Sum mm w1 none w2 r = CRes.ok (none, r)) ∧
    (∀ (a b : MatrixData) (w1 w2 : ℚ) (r : Matrix),
      (a.rowsNumber ≠ b.rowsNumber ∨ a.columnsNumber ≠ b.columnsNumber) →
      Mat_Sum (some a) w1 (some b) w2 r = CRes.ok (none, r)) ∧
    (∀ (t1 t2 : Char) (mm r : Matrix),
      Mat_Dot none t1 mm t2 r = CRes.ok (none, r)) ∧
    (∀ (t1 t2 : Char) (mm r : Matrix),
      Mat_Dot mm t1 none t2 r = CRes.ok (none, r)) ∧
    (∀ (a b : MatrixData) (t1 t2 : Char) (r : Matrix),
      (if t1 = MATRIX_TRANSPOSE then a.rowsNumber else a.columnsNumber) ≠
        (if t2 = MATRIX_TRANSPOSE then b.columnsNumber else b.rowsNumber) →
      Mat_Dot (some a) t1 (some b) t2 r = CRes.ok (none, r)) ∧
    (∀ r : Matrix, Mat_Transpose none r = CRes.ok (none, r)) ∧
    (∀ r : Matrix, Mat_Inverse none r = (none, r)) ∧
    (∀ m : MatrixData, Mat_Inverse (some m) none = (none, none)) ∧
    (∀ (m r : MatrixData), m.rowsNumber ≠ m.columnsNumber →
      Mat_Inverse (some m) (some r) = (none, some r)) := by
  refine ⟨fun k r => rfl, ?_, ?_, ?_, ?_, ?_, ?_, fun r => rfl,
    fun r => rfl, fun m => rfl, ?_⟩
  · intro w1 w2 mm r
    cases mm <;> rfl
  · intro w1 w2 mm r
    cases mm <;> rfl
  · intro a b w1 w2 r h
    simp only [Mat_Sum]
    rw [if_pos h]
  · intro t1 t2 mm r
    cases mm <;> rfl
  · intro t1 t2 mm r
    cases mm <;> rfl
  · intro a b t1 t2 r h
    simp only [Mat_Dot]
    rw [if_pos h]
  · intro m r h
    simp only [Mat_Inverse]
    rw [if_pos h]

/-- Claim C7 witness: mismatch failures at concrete inputs leave the
concrete result untouched. -/
theorem mat_fail_preserves_result_witness :
    Mat_Sum (some ⟨[0], 1, 1⟩) 1 (some ⟨[0, 0], 2, 1⟩) 1 (some ⟨[3], 1, 1⟩) =
      CRes.ok (none, some ⟨[3], 1, 1⟩) ∧
    Mat_Dot (some ⟨[0], 1, 1⟩) 'N' (some ⟨[0, 0], 2, 1⟩) 'N'
      (some ⟨[3], 1, 1⟩) = CRes.ok (none, some ⟨[3], 1, 1⟩) ∧
    Mat_Inverse (some ⟨[0, 0], 2, 1⟩) (some ⟨[3], 1, 1⟩) =
      (none, some ⟨[3], 1, 1⟩) :=
  ⟨mat_fail_preserves_result.2.2.2.1 _ _ _ _ _ (by norm_num),
   mat_fail_preserves_result.2.2.2.2.2.2.1 _ _ _ _ _
     (by simp [MATRIX_TRANSPOSE]),
   mat_fail_preserves_result.2.2.2.2.2.2.2.2.2.2 _ _ (by norm_num)⟩

/-- Claim C6: CONFIRMED — with a live matrix and a preallocated distinct
destination of the same dimensions and allocation, `Mat_Scale` aliased
equals `Mat_Scale` with the distinct destination, and for a square matrix
the same holds for `Mat_Transpose` and `Mat_Inverse`. -/
theorem mat_alias_agreement (m r : MatrixData) (k : ℚ)
    (hm : m.data.length = m.rowsNumber * m.columnsNumber)
    (hrr : r.rowsNumber = m.rowsNumber)
    (hrc : r.columnsNumber = m.columnsNumber)
    (hrl : r.data.length = m.rowsNumber * m.columnsNumber) :
    Mat_Scale (some m) k (some r) =
      CRes.ok (some (Mat_Scale_alias m k), some (Mat_Scale_alias m k)) ∧
    (m.rowsNumber = m.columnsNumber →
      Mat_Transpose (some m) (some r) =
        CRes.ok (some (Mat_Transpose_alias m), some (Mat_Transpose_alias m)) ∧
      Mat_Inverse (some m) (some r) = Mat_Inverse_alias (some m)) := by
  constructor
  · have hms : (⟨writeSeq (r.rowsNumber * r.columnsNumber) (fun i => i)
        (fun i => k * lGet m.data i) r.data,
        m.rowsNumber, m.columnsNumber⟩ : MatrixData) = Mat_Scale_alias m k := by
      refine matrixData_ext ?_ rfl rfl
      show writeSeq (r.rowsNumber * r.columnsNumber) (fun i => i)
        (fun i => k * lGet m.data i) r.data =
        (List.range (m.rowsNumber * m.columnsNumber)).foldl
          (fun b i => b.set i (k * lGet b i)) m.data
      rw [scale_alias_fold k m.data _ (le_of_eq hm.symm), hrr, hrc]
      exact writeSeq_full_ext _ _ r.data m.data hrl hm
    show CRes.ok (some (⟨writeSeq (r.rowsNumber * r.columnsNumber)
        (fun i => i) (fun i => k * lGet m.data i) r.data,
        m.rowsNumber, m.columnsNumber⟩ : MatrixData),
      some (⟨writeSeq (r.rowsNumber * r.columnsNumber) (fun i => i)
        (fun i => k * lGet m.data i) r.data,
        m.rowsNumber, m.columnsNumber⟩ : MatrixData)) =
      CRes.ok (some (Mat_Scale_alias m k), some (Mat_Scale_alias m k))
    rw [hms]
  · intro hsq
    obtain ⟨md, R, C⟩ := m
    have hsq2 : R = C := hsq
    subst hsq2
    have hm2 : md.length = R * R := hm
    have hrl2 : r.data.length = R * R := hrl
    constructor
    · have ht : transposeD ⟨md, R, R⟩ r = Mat_Transpose_alias ⟨md, R, R⟩ := by
        refine matrixData_ext ?_ rfl rfl
        show memcpyInto r.data (writePairs R R
          (fun row column => column * R + row)
          (fun row column => lGet md (row * R + column))
          (List.replicate (R * R) 0)) (R * R) =
          memcpyInto md (writePairs R R
          (fun row column => column * R + row)
          (fun row column => lGet md (row * R + column))
          (List.replicate (R * R) 0)) (R * R)
        have haux : (writePairs R R (fun row column => column * R + row)
            (fun row column => lGet md (row * R + column))
            (List.replicate (R * R) (0 : ℚ))).length ≤ R * R := by
          rw [writePairs_length, List.length_replicate]
        rw [memcpyInto_of_lengths haux (le_of_eq hrl2),
          memcpyInto_of_lengths haux (le_of_eq hm2)]
      show CRes.ok (some (transposeD ⟨md, R, R⟩ r),
        some (transposeD ⟨md, R, R⟩ r)) = _
      rw [ht]
    · have hd1 : memcpyInto r.data md (R * R) = md :=
        memcpyInto_of_lengths (le_of_eq hm2) (le_of_eq hrl2)
      have hRR : ¬ (R ≠ R) := fun h => h rfl
      show Mat_Inverse (some ⟨md, R, R⟩) (some r) =
        Mat_Inverse_alias (some ⟨md, R, R⟩)
      simp only [Mat_Inverse, Mat_Inverse_alias]
      rw [if_neg hRR, if_neg hRR]
      simp only [hd1]

/-- Claim C6 witness: aliased and distinct-destination agreement on a
concrete square matrix. -/
theorem mat_alias_agreement_witness :
    Mat_Scale (some ⟨[2], 1, 1⟩) 3 (some ⟨[0], 1, 1⟩) =
      CRes.ok (some (Mat_Scale_alias ⟨[2], 1, 1⟩ 3),
        some (Mat_Scale_alias ⟨[2], 1, 1⟩ 3)) ∧
    ((1 : ℕ) = 1 →
      Mat_Transpose (some ⟨[2], 1, 1⟩) (some ⟨[0], 1, 1⟩) =
        CRes.ok (some (Mat_Transpose_alias ⟨[2], 1, 1⟩),
          some (Mat_Transpose_alias ⟨[2], 1, 1⟩)) ∧
      Mat_Inverse (some ⟨[2], 1, 1⟩) (some ⟨[0], 1, 1⟩) =
        Mat_Inverse_alias (some ⟨[2], 1, 1⟩)) :=
  mat_alias_agreement ⟨[2], 1, 1⟩ ⟨[0], 1, 1⟩ 3 rfl rfl rfl rfl

/-- Claim C9: counterexample — the aliased `Mat_Transpose` of a NON-square
matrix corrupts the dimensions: for the live 2×1 matrix with data [1, 2],
line 281 of matrix.c reads the row count already overwritten by line 280,
so one aliased transpose yields a 1×1 matrix, and applying it twice leaves
a 1×1 matrix, not the original 2×1 shape required by the claim. -/
theorem mat_transpose_alias_cex :
    Mat_Transpose_alias (Mat_Transpose_alias ⟨[1, 2], 2, 1⟩) =
      ⟨[1, 2], 1, 1⟩ ∧
    (⟨[1, 2], 1, 1⟩ : MatrixData).rowsNumber ≠
      (⟨[1, 2], 2, 1⟩ : MatrixData).rowsNumber := by
  refine ⟨?_, by norm_num⟩
  with_unfolding_all rfl

/-- Claim C9 (amended): CONFIRMED for the non-aliased involution on every
live matrix through exactly-sized destinations, and for the aliased
involution on SQUARE matrices; the aliased non-square case is excluded (see
the counterexample). -/
theorem mat_transpose_involution (m b c : MatrixData)
    (hm : m.data.length = m.rowsNumber * m.columnsNumber)
    (hb : b.data.length = m.rowsNumber * m.columnsNumber)
    (hc : c.data.length = m.rowsNumber * m.columnsNumber) :
    Mat_Transpose (some m) (some b) =
      CRes.ok (some (transposeD m b), some (transposeD m b)) ∧
    transposeD (transposeD m b) c = m ∧
    (m.rowsNumber = m.columnsNumber →
      Mat_Transpose_alias (Mat_Transpose_alias m) = m) := by
  refine ⟨rfl, transposeD_involution m b c hm hb hc, ?_⟩
  intro hsq
  have halias : ∀ x : MatrixData, x.rowsNumber = x.columnsNumber →
      Mat_Transpose_alias x = transposeD x x := by
    intro x hx
    obtain ⟨xd, R, C⟩ := x
    have hx2 : R = C := hx
    subst hx2
    rfl
  have hlen : (transposeD m m).data.length =
      m.rowsNumber * m.columnsNumber := by
    rw [transposeD_data m m (by rw [Nat.mul_comm]; omega),
      writePairs_length, List.length_replicate, Nat.mul_comm]
  rw [halias m hsq,
    halias (transposeD m m) (by show m.columnsNumber = m.rowsNumber; omega)]
  exact transposeD_involution m m (transposeD m m) hm hm hlen

/-- Claim C9 (amended) witness: both involutions on a concrete 2×2
matrix. -/
theorem mat_transpose_involution_witness :
    Mat_Transpose (some ⟨[1, 3, 2, 4], 2, 2⟩) (some ⟨[0, 0, 0, 0], 2, 2⟩) =
      CRes.ok (some (transposeD ⟨[1, 3, 2, 4], 2, 2⟩ ⟨[0, 0, 0, 0], 2, 2⟩),
        some (transposeD ⟨[1, 3, 2, 4], 2, 2⟩ ⟨[0, 0, 0, 0], 2, 2⟩)) ∧
    transposeD (transposeD ⟨[1, 3, 2, 4], 2, 2⟩ ⟨[0, 0, 0, 0], 2, 2⟩)
      ⟨[9, 9, 9, 9], 2, 2⟩ = ⟨[1, 3, 2, 4], 2, 2⟩ ∧
    ((2 : ℕ) = 2 →
      Mat_Transpose_alias (Mat_Transpose_alias ⟨[1, 3, 2, 4], 2, 2⟩) =
        ⟨[1, 3, 2, 4], 2, 2⟩) :=
  mat_transpose_involution ⟨[1, 3, 2, 4], 2, 2⟩ ⟨[0, 0, 0, 0], 2, 2⟩
    ⟨[9, 9, 9, 9], 2, 2⟩ rfl rfl rfl

end SimpleMatrix
